import Mathlib

/-!
Verification of the ghira reconciliation pipeline.

This file gives a shallow embedding, in Lean, of the Go sources of the
shiftstack/ghira repository (main.go, the jiraclient throttling wrapper, and
the vendored bugwatcher query/team packages), and proves properties of the
embedded definitions.  Machine integers are modelled as Int/Nat (no overflow
is relevant to the properties below), strings as Lean String, HTTP traffic as
explicit scripts of responses, and the producer goroutines as functions from
such scripts to the list of values they send on their output channel together
with how their output stream ends.
-/

namespace Ghira

/-! ## Decimal digits

Helpers shared by the embeddings of strconv.Atoi, strconv.Itoa and the
regexp submatch parsing. -/

/-- Numeric value of a list of decimal digit characters, most significant
first (the accumulation performed by strconv.Atoi on a digit string). -/
def digitsVal (l : List Char) : Nat :=
  l.foldl (fun a c => a * 10 + (c.toNat - 48)) 0

/-- Decimal digit characters of a natural number, most significant first
(the rendering performed by strconv.Itoa on a non-negative value). -/
def natDigitsChars (n : Nat) : List Char :=
  if h : n < 10 then [Char.ofNat (48 + n)]
  else natDigitsChars (n / 10) ++ [Char.ofNat (48 + n % 10)]
decreasing_by exact Nat.div_lt_self (by omega) (by omega)

/-- Embedding of Go strconv.Itoa. -/
def goItoa (n : Int) : String :=
  if n < 0 then String.mk ('-' :: natDigitsChars (-n).toNat)
  else String.mk (natDigitsChars n.toNat)

/-! ## The throttling Jira HTTP client (jiraclient package)

The Go type throttlingHttpClient wraps http.Client.Do.  We model one HTTP
response by its status code and the value of Header.Get on "retry-after"
(Go returns the empty string when the header is absent). -/

structure HttpResponse where
  statusCode : Int
  retryAfter : String
deriving DecidableEq

/-- One result of the underlying http.Client.Do call: either a transport
failure (nil response together with a non-nil error), or a response paired
with a possibly nil error. -/
inductive TransportResult where
  | failure (err : String)
  | success (res : HttpResponse) (err : Option String)
deriving DecidableEq

/-- How a call to throttlingHttpClient.Do ends: a returned pair (res, err), a
nil-pointer dereference fault (the Go code reads res.StatusCode before
checking err), or exhaustion of the modelled response script. -/
inductive DoOutcome where
  | ok (res : HttpResponse) (err : Option String)
  | nilDeref
  | transportExhausted
deriving DecidableEq

/-- Embedding of Go strconv.Atoi restricted to its syntax checking: returns
the parsed value and an ok flag; on a syntax error Go returns n = 0 together
with a non-nil error, modelled as (0, false).  (Overflow of 64-bit int is not
modelled; no property below depends on it.) -/
def goAtoi (s : String) : Int × Bool :=
  match s.data with
  | [] => (0, false)
  | c :: rest =>
    if c == '-' then
      if !rest.isEmpty && rest.all Char.isDigit then (-(digitsVal rest : Int), true)
      else (0, false)
    else if c == '+' then
      if !rest.isEmpty && rest.all Char.isDigit then ((digitsVal rest : Int), true)
      else (0, false)
    else if (c :: rest).all Char.isDigit then ((digitsVal (c :: rest) : Int), true)
    else (0, false)

/-- Nanoseconds in one Go time.Second. -/
def nsPerSecond : Int := 1000000000

/-- Embedding of the wait computation in throttlingHttpClient.Do:
wait := time.Second * 1, and then, when the retry-after header is non-empty,
the source tests the strconv.Atoi error with err != nil and only then
overwrites wait with time.Duration(n) * time.Second.  The embedding mirrors
that inverted test faithfully: the parsed value (which is 0 whenever parsing
failed) is used exactly when the ok flag is false. -/
def computeWait (retryAfter : String) : Int :=
  let wait : Int := 1 * nsPerSecond
  if retryAfter != "" then
    let p := goAtoi retryAfter
    if p.2 == false then p.1 * nsPerSecond else wait
  else wait

/-- Embedding of throttlingHttpClient.Do over a script of underlying
transport results: returns the list of sleep durations (nanoseconds)
performed before each retry, and the final outcome.  The Go method reads
res.StatusCode before inspecting err, so a nil response (transport failure)
is a nil-pointer dereference; on status 429 it sleeps computeWait and
recurses on the same request (consuming the next scripted result); on any
other status it returns (res, err). -/
def throttlingDo : List TransportResult → List Int × DoOutcome
  | [] => ([], DoOutcome.transportExhausted)
  | TransportResult.failure _ :: _ => ([], DoOutcome.nilDeref)
  | TransportResult.success res err :: rest =>
    if res.statusCode == 429 then
      let w := computeWait res.retryAfter
      let r := throttlingDo rest
      (w :: r.1, r.2)
    else ([], DoOutcome.ok res err)

/-! ## The summary tag pattern

main.go compiles ghIssueNumberRegex from the pattern GH-orc-(\d+): and
applies FindStringSubmatch to each Jira summary.  Go regexp matching is
leftmost-first; for this pattern backtracking inside \d+ can never succeed
(shortening the greedy digit run leaves a digit where ": " must match), so a
match is: the literal tag, a maximal non-empty run of digits, then ": ". -/

/-- Whether the second list starts with the first one. -/
def startsWithChars : List Char → List Char → Bool
  | [], _ => true
  | _ :: _, [] => false
  | p :: ps, c :: cs => p == c && startsWithChars ps cs

/-- The seven characters of the literal part of the tag pattern. -/
def tagChars : List Char := ['G', 'H', '-', 'o', 'r', 'c', '-']

/-- Attempt to match GH-orc-(\d+): at the head of the character list,
returning the captured digit run. -/
def matchTagAt (l : List Char) : Option (List Char) :=
  match l with
  | 'G' :: 'H' :: '-' :: 'o' :: 'r' :: 'c' :: '-' :: rest =>
    let ds := rest.takeWhile Char.isDigit
    let after := rest.dropWhile Char.isDigit
    if ds.isEmpty then none
    else
      match after with
      | ':' :: ' ' :: _ => some ds
      | _ => none
  | _ => none

/-- Leftmost match of the tag pattern: the digit run captured at the first
position where matchTagAt succeeds. -/
def findTagDigits : List Char → Option (List Char)
  | [] => none
  | c :: rest =>
    match matchTagAt (c :: rest) with
    | some ds => some ds
    | none => findTagDigits rest

/-- Embedding of ghIssueNumberRegex.FindStringSubmatch followed by
strconv.Atoi on the capture: the source-item number embedded in a Jira
summary, if any. -/
def extractNumber (summary : String) : Option Int :=
  (findTagDigits summary.data).map (fun ds => (digitsVal ds : Int))

/-! ## Data model -/

/-- The user sub-objects of a GithubIssue (login handle plus the resolved
Jira username, which the JSON decoder leaves empty). -/
structure GithubUser where
  handle : String
  jiraUsername : String
deriving DecidableEq

/-- Embedding of the GithubIssue struct of main.go.  The pull_request
sub-object is modelled by an Option: the Go field has interface type and is
only ever compared against nil. -/
structure GithubIssue where
  title : String
  body : String
  url : String
  number : Int
  author : GithubUser
  assignee : GithubUser
  status : String
  isPR : Option Unit
deriving DecidableEq

/-- The fields of a Jira issue read by main.go: Key, Fields.Summary and
Fields.Status.Name. -/
structure JiraIssue where
  key : String
  summary : String
  statusName : String
deriving DecidableEq

/-- Embedding of the knownIssue struct of main.go (the Status pointer is
modelled by the status name main.go reads from it). -/
structure KnownIssue where
  key : String
  statusName : String
deriving DecidableEq

/-- Embedding of the Person struct of the vendored team package (the leave
intervals are not consulted by this repository's code). -/
structure Person where
  kerberos : String
  github : String
  jira : String
  slack : String
  teamMember : Bool
  bugTriage : Bool
deriving DecidableEq

/-! ## Tracker-state index (the alreadyKnown map in main) -/

/-- Go map assignment m[n] = v on a map modelled as a lookup function. -/
def insertKnown (m : Int → Option KnownIssue) (n : Int) (v : KnownIssue) :
    Int → Option KnownIssue :=
  fun k => if k == n then some v else m k

/-- Embedding of the loop in main that builds the alreadyKnown map from the
stream of Jira search results: for each issue whose summary matches the tag
pattern, assign map[number] = (key, status name).  (The Atoi in this loop
cannot fail on a syntax error since the capture is a non-empty digit run, so
the panic branch is not modelled.) -/
def buildAlreadyKnown (stream : List JiraIssue) : Int → Option KnownIssue :=
  stream.foldl
    (fun m issue =>
      match extractNumber issue.summary with
      | some n => insertKnown m n ⟨issue.key, issue.statusName⟩
      | none => m)
    (fun _ => none)

/-- The last issue in the stream whose summary embeds the given number; this
is the record a Go map loop keeps for a duplicated key. -/
def lastMatching (stream : List JiraIssue) (n : Int) : Option JiraIssue :=
  stream.foldl
    (fun acc issue => if extractNumber issue.summary = some n then some issue else acc)
    none

/-! ## Producers

The three producer goroutines (fetchGitHubIssues, AssignedToTheTeam,
query.SearchIssues) are embedded as functions from a script of HTTP
exchanges to the list of values sent on their output channel, the number of
requests issued, and how the output stream ends. -/

/-- How a producer goroutine leaves its output channel: closed; process
terminated by log.Fatalf; returned without closing the channel (its consumer
then blocks forever); or the modelled script ran out of responses. -/
inductive ProducerEnd where
  | closed
  | fatalExit
  | leaked
  | starved
deriving DecidableEq

/-- One page of the GitHub issues listing as fetchGitHubIssues observes it:
status code, whether the JSON decode of the body errors, the decoded batch,
and the URL extracted from the link response header by linkHeaderRegex (none
when the header is absent or carries no rel="next" relation; a successful
match of the regexp is a non-empty URL since its group matches one or more
non-space characters). -/
structure GhPage where
  statusCode : Int
  decodeError : Bool
  batch : List GithubIssue
  nextLink : Option String
deriving DecidableEq

/-- One result of client.Do inside fetchGitHubIssues. -/
inductive GhExchange where
  | transportError (err : String)
  | response (page : GhPage)
deriving DecidableEq

/-- Embedding of the fetchGitHubIssues goroutine: starting from the fixed
issues URL it loops while url is non-empty; a transport error, a non-200
status, or a decode error is log.Fatalf (process exit); otherwise every
batch entry whose pull_request sub-object is absent is sent on the channel,
and the loop continues exactly when the link header yielded a next URL.
Returns (items sent, requests issued, how the stream ends). -/
def fetchGitHubIssues : List GhExchange → List GithubIssue × Nat × ProducerEnd
  | [] => ([], 0, ProducerEnd.starved)
  | GhExchange.transportError _ :: _ => ([], 1, ProducerEnd.fatalExit)
  | GhExchange.response p :: rest =>
    if p.statusCode != 200 then ([], 1, ProducerEnd.fatalExit)
    else if p.decodeError then ([], 1, ProducerEnd.fatalExit)
    else
      let emitted := p.batch.filter (fun i => i.isPR.isNone)
      if p.nextLink.getD "" == "" then (emitted, 1, ProducerEnd.closed)
      else
        let r := fetchGitHubIssues rest
        (emitted ++ r.1, r.2.1 + 1, r.2.2)

/-- One page of Jira search results as query.SearchIssues observes it: the
error and response of SearchWithContext, with the StartAt and Total
pagination metadata. -/
structure SearchPage where
  err : Option String
  statusCode : Int
  issues : List JiraIssue
  startAt : Int
  total : Int
deriving DecidableEq

/-- The status switch in query.SearchIssues: 200, 204 and 202 continue, any
other status logs and returns. -/
def searchStatusOk (s : Int) : Bool :=
  s == 200 || s == 204 || s == 202

/-- Embedding of the query.SearchIssues goroutine.  The loop keeps state
(last, total), initially (0, 1), and runs while last < total; each iteration
issues one search.  An error is log.Fatalf (process exit); a status outside
200/204/202 makes the goroutine return WITHOUT closing the channel (the
leaked outcome); otherwise the page's issues are sent and the state becomes
(StartAt + length issues, Total).  The channel is closed only after the loop
condition fails. -/
def SearchIssues (script : List SearchPage) (last total : Int) :
    List JiraIssue × Nat × ProducerEnd :=
  if last < total then
    match script with
    | [] => ([], 0, ProducerEnd.starved)
    | p :: rest =>
      if p.err.isSome then ([], 1, ProducerEnd.fatalExit)
      else if searchStatusOk p.statusCode then
        let r := SearchIssues rest (p.startAt + p.issues.length) p.total
        (p.issues ++ r.1, r.2.1 + 1, r.2.2)
      else ([], 1, ProducerEnd.leaked)
  else ([], 0, ProducerEnd.closed)

/-! ## Identity resolution and the filter stage -/

/-- Embedding of team.PersonByGithubHandle: first person in the slice with
the given Github handle. -/
def PersonByGithubHandle (people : List Person) (githubHandle : String) : Option Person :=
  people.find? (fun p => p.github == githubHandle)

/-- Embedding of the AssignedToTheTeam goroutine as a list transformation:
for each incoming issue, resolve the author's Jira username (kept on the
item when found), then resolve the assignee's; the item is sent on the
output channel exactly when the assignee resolves, with the assignee's Jira
username populated.  The channel close is a defer, so the output is always a
finite closed stream; here only the sent items are returned. -/
def AssignedToTheTeam : List GithubIssue → List Person → List GithubIssue
  | [], _ => []
  | i :: rest, teamMembers =>
    let i1 :=
      match PersonByGithubHandle teamMembers i.author.handle with
      | some author => { i with author := { i.author with jiraUsername := author.jira } }
      | none => i
    match PersonByGithubHandle teamMembers i1.assignee.handle with
    | some assignee =>
      { i1 with assignee := { i1.assignee with jiraUsername := assignee.jira } } ::
        AssignedToTheTeam rest teamMembers
    | none => AssignedToTheTeam rest teamMembers

/-- Projection of a GithubIssue onto every field except the two resolved
Jira usernames (which are the only fields AssignedToTheTeam rewrites). -/
def plainView (i : GithubIssue) :
    String × String × String × Int × String × String × String :=
  (i.title, i.body, i.url, i.number, i.author.handle, i.assignee.handle, i.status)

/-! ## The reconciler (the main loop of main.go) -/

/-- The summary main.go writes into a created Jira issue:
"GH-orc-" + strconv.Itoa(issue.Number) + ": " + issue.Title. -/
def mkSummary (number : Int) (title : String) : String :=
  "GH-orc-" ++ goItoa number ++ ": " ++ title

/-- The Jira issue fields populated by createJiraIssue in main.go. -/
structure JiraIssueFields where
  assigneeName : String
  description : String
  typeName : String
  projectKey : String
  summary : String
  components : List String
deriving DecidableEq

/-- Embedding of createJiraIssue: the fields of the jira.Issue it submits
(the network call and its error handling live in the caller model). -/
def createJiraIssue (issue : GithubIssue) : JiraIssueFields :=
  { assigneeName := issue.assignee.jiraUsername
    description := "Originally posted on Github: " ++ issue.url ++ "\n\n" ++ issue.body
    typeName := "Task"
    projectKey := "OSASINFRA"
    summary := mkSummary issue.number issue.title
    components := ["ORC"] }

/-- One transition offered by jiraClient.Issue.GetTransitions. -/
structure Transition where
  name : String
  id : String
deriving DecidableEq

/-- Embedding of the loop over possibleTransitions in main: the pair
(transitionTodo, transitionClosed), both initially empty, the switch keeping
the ID of the last transition named "To Do" resp. "Closed". -/
def transitionIds (ts : List Transition) : String × String :=
  ts.foldl
    (fun acc t =>
      match t.name with
      | "Closed" => (acc.1, t.id)
      | "To Do" => (t.id, acc.2)
      | _ => acc)
    ("", "")

/-- One call the reconciler issues against the Jira client. -/
inductive JiraCall where
  | getTransitions (key : String)
  | doTransition (key : String) (transitionId : String)
  | createIssue (fields : JiraIssueFields)
deriving DecidableEq

/-- Whether a Jira call mutates the tracker (GetTransitions is a read). -/
def isMutation : JiraCall → Bool
  | JiraCall.getTransitions _ => false
  | JiraCall.doTransition _ _ => true
  | JiraCall.createIssue _ => true

/-- Embedding of the body of the reconciliation loop in main for one
filtered issue: when the alreadyKnown map has an entry, list the entry's
transitions and then switch on (issue status, Jira status name); when it has
none, create a Jira issue.  Returns the calls issued, in order.  (Failures
of the mutation calls are logged and do not change which calls are made.) -/
def processIssue (alreadyKnown : Int → Option KnownIssue)
    (transitionsOf : String → List Transition) (issue : GithubIssue) : List JiraCall :=
  match alreadyKnown issue.number with
  | some jiraIssue =>
    let ids := transitionIds (transitionsOf jiraIssue.key)
    JiraCall.getTransitions jiraIssue.key ::
      (if issue.status == "closed" && jiraIssue.statusName != "Closed" then
        [JiraCall.doTransition jiraIssue.key ids.2]
      else if issue.status == "open" && jiraIssue.statusName == "Closed" then
        [JiraCall.doTransition jiraIssue.key ids.1]
      else [])
  | none => [JiraCall.createIssue (createJiraIssue issue)]

/-- The per-item decision of the reconciler, read off the same switch as
processIssue (spec section 3 calls it ReconciliationDecision). -/
inductive Decision where
  | create
  | transitionToClosed
  | transitionToOpen
  | noOp
deriving DecidableEq

/-- Decision taken by the main loop for one filtered issue against the
alreadyKnown map: absence of an entry means create; otherwise the two
transition cases of the switch, defaulting to no-op. -/
def decision (alreadyKnown : Int → Option KnownIssue) (issue : GithubIssue) : Decision :=
  match alreadyKnown issue.number with
  | some jiraIssue =>
    if issue.status == "closed" && jiraIssue.statusName != "Closed" then
      Decision.transitionToClosed
    else if issue.status == "open" && jiraIssue.statusName == "Closed" then
      Decision.transitionToOpen
    else Decision.noOp
  | none => Decision.create

/-- Modelled from the spec: the tracker's reaction to one reconciler action,
as the next run's rebuilt index will observe it, assuming the action
succeeded (claim scope).  The create/transition endpoints themselves are not
part of this repository: a created ticket appears under the item's number
with a fresh key and the tracker's initial status for new tickets; a
successful transition rewrites the status name of the existing entry to
"Closed" resp. "To Do"; a no-op changes nothing. -/
def applyDecision (m : Int → Option KnownIssue) (d : Decision) (number : Int)
    (newKey createdStatus : String) : Int → Option KnownIssue :=
  match d with
  | Decision.create =>
    fun n => if n == number then some ⟨newKey, createdStatus⟩ else m n
  | Decision.transitionToClosed =>
    fun n => if n == number then (m n).map (fun k => ⟨k.key, "Closed"⟩) else m n
  | Decision.transitionToOpen =>
    fun n => if n == number then (m n).map (fun k => ⟨k.key, "To Do"⟩) else m n
  | Decision.noOp => m

/-- Modelled from the spec: the tracker state after one full reconciler run
over the filtered items, as rebuilt by the next run's index.  Each item's
decision is taken against the run's own (read-only) alreadyKnown map, while
the effects accumulate on the tracker. -/
def runEffect (alreadyKnown : Int → Option KnownIssue) (issues : List GithubIssue)
    (newKeyOf : Int → String) (createdStatus : String) : Int → Option KnownIssue :=
  issues.foldl
    (fun m i =>
      applyDecision m (decision alreadyKnown i) i.number (newKeyOf i.number) createdStatus)
    alreadyKnown

/-! ## Pagination chains

A well-formed sequence of pages in which every page except the last
advertises a next page, in the sense each fetcher uses. -/

/-- A non-empty list of successful GitHub pages in which every page but the
last carries a (non-empty) next link and the last carries none. -/
inductive GhChain : List GhPage → Prop
  | last (p : GhPage) :
      p.statusCode = 200 → p.decodeError = false → p.nextLink = none → GhChain [p]
  | cons (p : GhPage) (rest : List GhPage) :
      p.statusCode = 200 → p.decodeError = false →
      (∃ u, p.nextLink = some u ∧ u ≠ "") → GhChain rest → GhChain (p :: rest)

/-- A non-empty list of successful Jira search pages in which every page but
the last reports StartAt + page size below Total, and the last does not. -/
inductive SearchChain : List SearchPage → Prop
  | last (p : SearchPage) :
      p.err = none → searchStatusOk p.statusCode = true →
      p.total ≤ p.startAt + p.issues.length → SearchChain [p]
  | cons (p : SearchPage) (rest : List SearchPage) :
      p.err = none → searchStatusOk p.statusCode = true →
      p.startAt + p.issues.length < p.total → SearchChain rest → SearchChain (p :: rest)

/-! ## Concrete sample values used by counterexamples and witnesses -/

/-- A closed source item number 42, assigned to a resolvable team member. -/
def issue42 : GithubIssue :=
  { title := "Fix the frobnicator"
    body := "It is broken"
    url := "https://github.test/42"
    number := 42
    author := { handle := "alice", jiraUsername := "" }
    assignee := { handle := "alice", jiraUsername := "" }
    status := "closed"
    isPR := none }

/-- An open source item number 7. -/
def issue7 : GithubIssue :=
  { title := "Add a knob"
    body := ""
    url := "https://github.test/7"
    number := 7
    author := { handle := "bob", jiraUsername := "" }
    assignee := { handle := "alice", jiraUsername := "" }
    status := "open"
    isPR := none }

/-- A pull request entry as decoded from the GitHub listing. -/
def prItem : GithubIssue :=
  { title := "Refactor"
    body := ""
    url := "https://github.test/50"
    number := 50
    author := { handle := "alice", jiraUsername := "" }
    assignee := { handle := "alice", jiraUsername := "" }
    status := "open"
    isPR := some () }

/-- A team member whose Github handle is alice. -/
def personAlice : Person :=
  { kerberos := "akerb"
    github := "alice"
    jira := "alice-jira"
    slack := "@alice"
    teamMember := true
    bugTriage := false }

/-- The empty tracker-state index. -/
def emptyIndex : Int → Option KnownIssue := fun _ => none

/-- Two Jira search results whose summaries embed the same item number 5. -/
def dupIssueA : JiraIssue :=
  { key := "OSASINFRA-1", summary := "GH-orc-5: first", statusName := "New" }

/-- The later duplicate for item number 5. -/
def dupIssueB : JiraIssue :=
  { key := "OSASINFRA-2", summary := "GH-orc-5: second", statusName := "Closed" }

/-- A successful GitHub page advertising a next page. -/
def ghPage1 : GhPage :=
  { statusCode := 200, decodeError := false, batch := [issue42], nextLink := some "page2" }

/-- A successful final GitHub page (no next link). -/
def ghPage2 : GhPage :=
  { statusCode := 200, decodeError := false, batch := [issue7], nextLink := none }

/-- A successful first Jira search page, with more results available. -/
def spPage1 : SearchPage :=
  { err := none, statusCode := 200, issues := [dupIssueA], startAt := 0, total := 2 }

/-- A successful final Jira search page. -/
def spPage2 : SearchPage :=
  { err := none, statusCode := 200, issues := [dupIssueB], startAt := 1, total := 2 }

/-- A single GitHub page whose batch holds a pull request and an issue. -/
def c8Script : List GhExchange :=
  [GhExchange.response
    { statusCode := 200, decodeError := false, batch := [prItem, issue42], nextLink := none }]

/-- Item 7 as the filter stage emits it when alice is on the roster. -/
def issue7resolved : GithubIssue :=
  { issue7 with assignee := { issue7.assignee with jiraUsername := "alice-jira" } }

/-! ## Theorems -/

/-- C1: failing-input evaluation.  A first response with status 429 and the
header retry-after: 2, followed by a success, makes throttlingHttpClient.Do
sleep exactly the one-second default, not the 2 seconds the header asks for:
the source tests the strconv.Atoi error with err != nil, so a successfully
parsed header value is discarded.  Moreover an unparsable header makes it
sleep 0 seconds instead of the documented one-second default. -/
theorem c1_throttle_wait_inverted :
    throttlingDo
        [TransportResult.success ⟨429, "2"⟩ none, TransportResult.success ⟨200, ""⟩ none]
      = ([1000000000], DoOutcome.ok ⟨200, ""⟩ none)
    ∧ throttlingDo
        [TransportResult.success ⟨429, "oops"⟩ none, TransportResult.success ⟨200, ""⟩ none]
      = ([0], DoOutcome.ok ⟨200, ""⟩ none)
    ∧ (1000000000 : Int) < 2 * nsPerSecond := by decide

/-- C10: failing-input evaluation.  When the underlying transport returns a
nil response together with an error, throttlingHttpClient.Do reads
res.StatusCode before checking err and faults on the nil pointer instead of
returning the error. -/
theorem c10_nil_response_deref :
    throttlingDo [TransportResult.failure "connection refused"] = ([], DoOutcome.nilDeref) := by
  decide

/-- C4: failing-input evaluation.  On a search response whose status is
outside 200/202/204, the query.SearchIssues goroutine returns without
closing its output channel: the emitted sequence is never terminated and the
consumer ranging over the channel blocks forever. -/
theorem c4_search_leak_on_bad_status :
    SearchIssues
        [{ err := none, statusCode := 500, issues := [], startAt := 0, total := 0 }] 0 1
      = ([], 1, ProducerEnd.leaked)
    ∧ ProducerEnd.leaked ≠ ProducerEnd.closed := by decide

/-- C5: counterexample.  With two search results whose summaries both embed
item number 5, the alreadyKnown map keeps the record of the second (last)
one, not of the first: first-match wins is false. -/
theorem c5_counterexample :
    buildAlreadyKnown [dupIssueA, dupIssueB] 5 = some ⟨"OSASINFRA-2", "Closed"⟩
    ∧ ¬ buildAlreadyKnown [dupIssueA, dupIssueB] 5 = some ⟨"OSASINFRA-1", "New"⟩ := by
  decide

/-- C3: counterexample.  A closed source item with no tracker ticket is
created on the first run; the created ticket starts in the tracker's initial
status (here "New", not "Closed") and the first run never transitions a
ticket it just created, so the second run decides transition-to-Closed for
it, not no-op. -/
theorem c3_counterexample :
    decision emptyIndex issue42 = Decision.create
    ∧ decision (runEffect emptyIndex [issue42] (fun _ => "OSASINFRA-9") "New") issue42
        = Decision.transitionToClosed
    ∧ Decision.transitionToClosed ≠ Decision.noOp := by decide

/-- C2: for every filtered source item, the reconciler's calls follow the
cross of source status and index lookup.  No index entry: exactly one
create call carrying the summary "GH-orc-" ++ number ++ ": " ++ title, and
no transition call.  An entry: a closed item with Jira status other than
"Closed" gets the transition whose ID was collected for the name "Closed"
applied; an open item with Jira status "Closed" gets the one collected for
"To Do"; any other combination issues no mutation call. -/
theorem c2_reconciler_decision_table
    (alreadyKnown : Int → Option KnownIssue)
    (transitionsOf : String → List Transition) (issue : GithubIssue) :
    (alreadyKnown issue.number = none →
      processIssue alreadyKnown transitionsOf issue
        = [JiraCall.createIssue (createJiraIssue issue)]
      ∧ (createJiraIssue issue).summary = mkSummary issue.number issue.title)
    ∧ ∀ k, alreadyKnown issue.number = some k →
        (issue.status = "closed" → k.statusName ≠ "Closed" →
          processIssue alreadyKnown transitionsOf issue
            = [JiraCall.getTransitions k.key,
               JiraCall.doTransition k.key (transitionIds (transitionsOf k.key)).2])
        ∧ (issue.status = "open" → k.statusName = "Closed" →
          processIssue alreadyKnown transitionsOf issue
            = [JiraCall.getTransitions k.key,
               JiraCall.doTransition k.key (transitionIds (transitionsOf k.key)).1])
        ∧ (¬(issue.status = "closed" ∧ k.statusName ≠ "Closed") →
            ¬(issue.status = "open" ∧ k.statusName = "Closed") →
          (processIssue alreadyKnown transitionsOf issue).filter isMutation = []) := by
  refine ⟨fun h => ⟨by simp [processIssue, h], rfl⟩, fun k hk => ?_⟩
  refine ⟨fun hc hn => ?_, fun ho hn => ?_, fun h1 h2 => ?_⟩
  · simp [processIssue, hk, hc, hn]
  · simp [processIssue, hk, ho, hn]
  · have hb1 : (issue.status == "closed" && k.statusName != "Closed") = false := by
      by_cases hc : issue.status = "closed"
      · have hcn : k.statusName = "Closed" := by
          by_contra hn
          exact h1 ⟨hc, hn⟩
        simp [hc, hcn]
      · simp [hc]
    have hb2 : (issue.status == "open" && k.statusName == "Closed") = false := by
      by_cases ho : issue.status = "open"
      · have hcn : ¬k.statusName = "Closed" := fun hcc => h2 ⟨ho, hcc⟩
        simp [ho, hcn]
      · simp [ho]
    simp [processIssue, hk, hb1, hb2, isMutation]

/-- C2 witness: with an empty index, item 42 yields exactly the create call;
with item 7 open against a "Closed" ticket offering transitions
To Do(ID 11) and Closed(ID 21), it yields list-transitions followed by
applying ID 11. -/
theorem c2_witness :
    processIssue emptyIndex (fun _ => []) issue42
      = [JiraCall.createIssue (createJiraIssue issue42)]
    ∧ processIssue (fun n => if n == 7 then some ⟨"OSASINFRA-3", "Closed"⟩ else none)
        (fun _ => [⟨"To Do", "11"⟩, ⟨"Closed", "21"⟩]) issue7
      = [JiraCall.getTransitions "OSASINFRA-3",
         JiraCall.doTransition "OSASINFRA-3" "11"] := by
  constructor
  · exact ((c2_reconciler_decision_table emptyIndex (fun _ => []) issue42).1 rfl).1
  · have h :=
      ((c2_reconciler_decision_table
          (fun n => if n == 7 then some ⟨"OSASINFRA-3", "Closed"⟩ else none)
          (fun _ => [⟨"To Do", "11"⟩, ⟨"Closed", "21"⟩]) issue7).2
        ⟨"OSASINFRA-3", "Closed"⟩ rfl).2.1 rfl rfl
    exact h.trans (by decide)

/-- C8: every item the GitHub fetcher sends downstream has no pull_request
sub-object: pull requests are dropped at the fetch stage, whatever the
response script. -/
theorem c8_pull_requests_dropped (script : List GhExchange) (i : GithubIssue)
    (h : i ∈ (fetchGitHubIssues script).1) : i.isPR = none := by
  induction script with
  | nil => simp [fetchGitHubIssues] at h
  | cons x rest ih =>
    cases x with
    | transportError e => simp [fetchGitHubIssues] at h
    | response p =>
      simp only [fetchGitHubIssues] at h
      split at h
      · simp at h
      · split at h
        · simp at h
        · split at h
          · rw [List.mem_filter] at h
            exact Option.isNone_iff_eq_none.mp h.2
          · rw [List.mem_append] at h
            rcases h with h | h
            · rw [List.mem_filter] at h
              exact Option.isNone_iff_eq_none.mp h.2
            · exact ih h

/-- C8 witness: a page carrying a pull request and an issue; the issue is
emitted and carries no pull_request sub-object. -/
theorem c8_witness :
    issue42 ∈ (fetchGitHubIssues c8Script).1 ∧ issue42.isPR = none :=
  ⟨by decide, c8_pull_requests_dropped c8Script issue42 (by decide)⟩

/-- C9: the filter/resolve stage emits, in order, exactly the items whose
assignee handle resolves against the roster (every other item is excluded),
and every emitted item carries the resolved person's Jira username in its
assignee.  The projection plainView covers every field except the two
usernames the stage rewrites. -/
theorem c9_filter_resolve (issues : List GithubIssue) (teamMembers : List Person) :
    (∀ j ∈ AssignedToTheTeam issues teamMembers,
      ∃ p, PersonByGithubHandle teamMembers j.assignee.handle = some p
        ∧ j.assignee.jiraUsername = p.jira)
    ∧ (AssignedToTheTeam issues teamMembers).map plainView
        = (issues.filter
            (fun i => (PersonByGithubHandle teamMembers i.assignee.handle).isSome)).map
            plainView := by
  induction issues with
  | nil => simp [AssignedToTheTeam]
  | cons i rest ih =>
    cases hA : PersonByGithubHandle teamMembers i.author.handle with
    | none =>
      cases hB : PersonByGithubHandle teamMembers i.assignee.handle with
      | none =>
        refine ⟨?_, ?_⟩
        · intro j hj
          rw [AssignedToTheTeam] at hj
          simp only [hA, hB] at hj
          exact ih.1 j hj
        · rw [AssignedToTheTeam]
          simp only [hA, hB]
          rw [List.filter_cons_of_neg (by simp [hB])]
          exact ih.2
      | some q =>
        refine ⟨?_, ?_⟩
        · intro j hj
          rw [AssignedToTheTeam] at hj
          simp only [hA, hB, List.mem_cons] at hj
          rcases hj with rfl | hj
          · exact ⟨q, by simpa using hB, rfl⟩
          · exact ih.1 j hj
        · rw [AssignedToTheTeam]
          simp only [hA, hB]
          rw [List.filter_cons_of_pos (by simp [hB])]
          simp only [List.map_cons, ih.2]
          rfl
    | some a =>
      cases hB : PersonByGithubHandle teamMembers i.assignee.handle with
      | none =>
        refine ⟨?_, ?_⟩
        · intro j hj
          rw [AssignedToTheTeam] at hj
          simp only [hA] at hj
          simp only [show ({ i with
              author := { i.author with jiraUsername := a.jira } } : GithubIssue).assignee
              = i.assignee from rfl, hB] at hj
          exact ih.1 j hj
        · rw [AssignedToTheTeam]
          simp only [hA]
          simp only [show ({ i with
              author := { i.author with jiraUsername := a.jira } } : GithubIssue).assignee
              = i.assignee from rfl, hB]
          rw [List.filter_cons_of_neg (by simp [hB])]
          exact ih.2
      | some q =>
        refine ⟨?_, ?_⟩
        · intro j hj
          rw [AssignedToTheTeam] at hj
          simp only [hA] at hj
          simp only [show ({ i with
              author := { i.author with jiraUsername := a.jira } } : GithubIssue).assignee
              = i.assignee from rfl, hB, List.mem_cons] at hj
          rcases hj with rfl | hj
          · exact ⟨q, by simpa using hB, rfl⟩
          · exact ih.1 j hj
        · rw [AssignedToTheTeam]
          simp only [hA]
          simp only [show ({ i with
              author := { i.author with jiraUsername := a.jira } } : GithubIssue).assignee
              = i.assignee from rfl, hB]
          rw [List.filter_cons_of_pos (by simp [hB])]
          simp only [List.map_cons, ih.2]
          rfl

/-- C9 witness: with the roster holding alice only, item 7 (assigned to
alice) is emitted with her Jira username and item 42 reassigned to a
stranger would be dropped; here both inputs resolve so both are kept. -/
theorem c9_witness :
    (∃ p, PersonByGithubHandle [personAlice] issue7resolved.assignee.handle = some p
      ∧ issue7resolved.assignee.jiraUsername = p.jira)
    ∧ (AssignedToTheTeam [issue7, prItem] [personAlice]).map plainView
        = ([issue7, prItem].filter
            (fun i => (PersonByGithubHandle [personAlice] i.assignee.handle).isSome)).map
            plainView := by
  constructor
  · exact (c9_filter_resolve [issue7] [personAlice]).1 issue7resolved (by decide)
  · exact (c9_filter_resolve [issue7, prItem] [personAlice]).2

/-- A successful GitHub page with a next link makes the fetcher emit its
non-PR entries and continue on the rest of the script. -/
theorem fetchGitHubIssues_step (p : GhPage) (rest : List GhExchange)
    (h200 : p.statusCode = 200) (hdec : p.decodeError = false)
    (u : String) (hu : p.nextLink = some u) (hune : u ≠ "") :
    fetchGitHubIssues (GhExchange.response p :: rest)
      = (p.batch.filter (fun i => i.isPR.isNone) ++ (fetchGitHubIssues rest).1,
         (fetchGitHubIssues rest).2.1 + 1, (fetchGitHubIssues rest).2.2) := by
  simp [fetchGitHubIssues, h200, hdec, hu, hune]

/-- A successful GitHub page without a next link makes the fetcher emit its
non-PR entries and close its channel. -/
theorem fetchGitHubIssues_last (p : GhPage) (rest : List GhExchange)
    (h200 : p.statusCode = 200) (hdec : p.decodeError = false) (hnone : p.nextLink = none) :
    fetchGitHubIssues (GhExchange.response p :: rest)
      = (p.batch.filter (fun i => i.isPR.isNone), 1, ProducerEnd.closed) := by
  simp [fetchGitHubIssues, h200, hdec, hnone]

/-- Over a chain of pages, the fetcher emits the concatenation of the pages'
non-PR entries, issues exactly one request per page, closes its channel, and
never touches the script beyond the chain. -/
theorem fetchGitHubIssues_chain {gh : List GhPage} (h : GhChain gh)
    (extra : List GhExchange) :
    fetchGitHubIssues (gh.map GhExchange.response ++ extra)
      = ((gh.map (fun p => p.batch.filter (fun i => i.isPR.isNone))).flatten,
         gh.length, ProducerEnd.closed) := by
  induction h with
  | last p h200 hdec hnone =>
    simp [fetchGitHubIssues_last p extra h200 hdec hnone]
  | cons p rest h200 hdec hnext hrest ih =>
    obtain ⟨u, hu, hune⟩ := hnext
    simp only [List.map_cons, List.cons_append]
    rw [fetchGitHubIssues_step p (rest.map GhExchange.response ++ extra) h200 hdec u hu hune,
      ih]
    simp

/-- A successful Jira search page keeps the loop going with the page's
pagination metadata while the loop condition holds. -/
theorem SearchIssues_step (p : SearchPage) (rest : List SearchPage) (last total : Int)
    (hl : last < total) (herr : p.err = none) (hok : searchStatusOk p.statusCode = true) :
    SearchIssues (p :: rest) last total
      = (p.issues ++ (SearchIssues rest (p.startAt + p.issues.length) p.total).1,
         (SearchIssues rest (p.startAt + p.issues.length) p.total).2.1 + 1,
         (SearchIssues rest (p.startAt + p.issues.length) p.total).2.2) := by
  rw [SearchIssues.eq_def]
  simp [hl, herr, hok]

/-- When the loop condition fails the search closes its channel without a
request. -/
theorem SearchIssues_stop (script : List SearchPage) (last total : Int)
    (h : ¬last < total) :
    SearchIssues script last total = ([], 0, ProducerEnd.closed) := by
  rw [SearchIssues.eq_def]
  simp [h]

/-- Over a chain of search pages, the search emits the concatenation of the
pages' issues, issues exactly one request per page, closes its channel, and
never touches the script beyond the chain. -/
theorem SearchIssues_chain {sp : List SearchPage} (h : SearchChain sp)
    (extra : List SearchPage) :
    ∀ last total : Int, last < total →
      SearchIssues (sp ++ extra) last total
        = ((sp.map SearchPage.issues).flatten, sp.length, ProducerEnd.closed) := by
  induction h with
  | last p herr hok hstop =>
    intro last total hl
    simp only [List.cons_append, List.nil_append]
    rw [SearchIssues_step p extra last total hl herr hok,
      SearchIssues_stop extra _ _ (by omega)]
    simp
  | cons p rest herr hok hmore hrest ih =>
    intro last total hl
    simp only [List.cons_append]
    rw [SearchIssues_step p (rest ++ extra) last total hl herr hok,
      ih _ _ hmore]
    simp

/-- C7: given a chain of N successful pages in which every page but the last
advertises a next page (a next link for the GitHub fetcher; offset plus page
size below the reported total for the Jira search), each producer emits
exactly the union of the pages' items, in order, issues exactly N requests,
and closes its stream without touching any further scripted response. -/
theorem c7_pagination_terminates
    (gh : List GhPage) (hgh : GhChain gh)
    (hnp : ∀ p ∈ gh, ∀ i ∈ p.batch, i.isPR = none)
    (ghExtra : List GhExchange)
    (sp : List SearchPage) (hsp : SearchChain sp) (spExtra : List SearchPage) :
    fetchGitHubIssues (gh.map GhExchange.response ++ ghExtra)
      = ((gh.map GhPage.batch).flatten, gh.length, ProducerEnd.closed)
    ∧ SearchIssues (sp ++ spExtra) 0 1
      = ((sp.map SearchPage.issues).flatten, sp.length, ProducerEnd.closed) := by
  constructor
  · rw [fetchGitHubIssues_chain hgh ghExtra]
    have hmap : gh.map (fun p => p.batch.filter (fun i => i.isPR.isNone))
        = gh.map GhPage.batch :=
      List.map_congr_left fun p hp =>
        List.filter_eq_self.mpr fun i hi => by
          simp [Option.isNone_iff_eq_none, hnp p hp i hi]
    rw [hmap]
  · exact SearchIssues_chain hsp spExtra 0 1 (by omega)

/-- C7 witness: two GitHub pages and two search pages, each chain advertising
one next page; both runs emit both pages' items, make two requests, and
close, with junk appended beyond the last page left untouched. -/
theorem c7_witness :
    fetchGitHubIssues ([ghPage1, ghPage2].map GhExchange.response
        ++ [GhExchange.transportError "junk"])
      = ([issue42, issue7], 2, ProducerEnd.closed)
    ∧ SearchIssues ([spPage1, spPage2] ++ [spPage1]) 0 1
      = ([dupIssueA, dupIssueB], 2, ProducerEnd.closed) := by
  have h := c7_pagination_terminates [ghPage1, ghPage2]
    (GhChain.cons ghPage1 [ghPage2] rfl rfl ⟨"page2", rfl, by decide⟩
      (GhChain.last ghPage2 rfl rfl rfl))
    (by decide)
    [GhExchange.transportError "junk"]
    [spPage1, spPage2]
    (SearchChain.cons spPage1 [spPage2] rfl rfl (by decide)
      (SearchChain.last spPage2 rfl rfl (by decide)))
    [spPage1]
  exact ⟨h.1.trans (by decide), h.2.trans (by decide)⟩

/-- Characters 48 + d for d < 10 are decimal digits. -/
theorem digitChar_isDigit (d : Nat) (h : d < 10) : (Char.ofNat (48 + d)).isDigit = true := by
  interval_cases d <;> decide

/-- Code point of the digit character for d < 10. -/
theorem digitChar_toNat (d : Nat) (h : d < 10) : (Char.ofNat (48 + d)).toNat = 48 + d := by
  interval_cases d <;> decide

/-- A rendered natural number is never the empty string. -/
theorem natDigitsChars_ne_nil (n : Nat) : natDigitsChars n ≠ [] := by
  rw [natDigitsChars]
  split <;> simp

/-- A rendered natural number is never empty (Bool form). -/
theorem natDigitsChars_isEmpty (n : Nat) : (natDigitsChars n).isEmpty = false := by
  rw [natDigitsChars]
  split <;> simp

/-- Every character of a rendered natural number is a decimal digit. -/
theorem natDigitsChars_all_digits (n : Nat) : ∀ c ∈ natDigitsChars n, c.isDigit = true := by
  induction n using Nat.strong_induction_on with
  | _ n ih =>
    rw [natDigitsChars]
    split
    · next h =>
      intro c hc
      simp only [List.mem_singleton] at hc
      subst hc
      exact digitChar_isDigit n h
    · next h =>
      intro c hc
      rw [List.mem_append] at hc
      rcases hc with hc | hc
      · exact ih (n / 10) (Nat.div_lt_self (by omega) (by omega)) c hc
      · simp only [List.mem_singleton] at hc
        subst hc
        exact digitChar_isDigit (n % 10) (Nat.mod_lt _ (by omega))

/-- Appending one digit multiplies the accumulated value by ten. -/
theorem digitsVal_append_last (xs : List Char) (c : Char) :
    digitsVal (xs ++ [c]) = digitsVal xs * 10 + (c.toNat - 48) := by
  simp [digitsVal, List.foldl_append]

/-- Parsing a rendered natural number recovers it. -/
theorem digitsVal_natDigitsChars (n : Nat) : digitsVal (natDigitsChars n) = n := by
  induction n using Nat.strong_induction_on with
  | _ n ih =>
    rw [natDigitsChars]
    split
    · next h =>
      simp [digitsVal, digitChar_toNat n h]
    · next h =>
      rw [digitsVal_append_last, ih (n / 10) (Nat.div_lt_self (by omega) (by omega)),
        digitChar_toNat (n % 10) (Nat.mod_lt _ (by omega))]
      omega

/-- takeWhile and dropWhile on a digit run followed by a non-digit. -/
theorem takeWhile_digit_run (ds : List Char) (c0 : Char) (l : List Char)
    (h : ∀ c ∈ ds, c.isDigit = true) (hc0 : c0.isDigit = false) :
    (ds ++ c0 :: l).takeWhile Char.isDigit = ds
    ∧ (ds ++ c0 :: l).dropWhile Char.isDigit = c0 :: l := by
  induction ds with
  | nil => simp [List.takeWhile_cons, List.dropWhile_cons, hc0]
  | cons d ds ih =>
    have hd : d.isDigit = true := h d (by simp)
    have hih := ih fun c hc => h c (by simp [hc])
    simp [List.takeWhile_cons, List.dropWhile_cons, hd, hih.1, hih.2]

/-- A list always starts with itself, whatever follows. -/
theorem startsWithChars_append (p r : List Char) : startsWithChars p (p ++ r) = true := by
  induction p with
  | nil => rfl
  | cons c cs ih => simp [startsWithChars, ih]

/-- The character data of the summary written for a non-negative number. -/
theorem mkSummary_data (n : Int) (h : 0 ≤ n) (title : String) :
    (mkSummary n title).data
      = tagChars ++ (natDigitsChars n.toNat ++ ':' :: ' ' :: title.data) := by
  have h1 : "GH-orc-".data = tagChars := rfl
  have h2 : ": ".data = [':', ' '] := rfl
  have h3 : (goItoa n).data = natDigitsChars n.toNat := by
    rw [goItoa, if_neg (by omega)]
  simp [mkSummary, String.data_append, h1, h2, h3, tagChars]

/-- The tag pattern extraction recovers the number from a written summary. -/
theorem extractNumber_mkSummary (n : Int) (h : 0 ≤ n) (title : String) :
    extractNumber (mkSummary n title) = some n := by
  have hdig := natDigitsChars_all_digits n.toNat
  have hcolon : (':' : Char).isDigit = false := by decide
  have htd := takeWhile_digit_run (natDigitsChars n.toNat) ':' (' ' :: title.data) hdig hcolon
  rw [extractNumber, mkSummary_data n h title]
  simp only [tagChars, List.cons_append, List.nil_append]
  rw [findTagDigits]
  simp only [matchTagAt, htd.1, htd.2, natDigitsChars_isEmpty, Bool.false_eq_true,
    if_false]
  simp [digitsVal_natDigitsChars, Int.toNat_of_nonneg h]

/-- C6: the summary createJiraIssue writes starts with the tag
GH-orc-(number): and feeding that summary to the index's extraction pattern
recovers exactly the item's number (GitHub issue numbers are non-negative). -/
theorem c6_summary_roundtrip (issue : GithubIssue) (h : 0 ≤ issue.number) :
    startsWithChars (tagChars ++ (goItoa issue.number).data ++ [':', ' '])
        ((createJiraIssue issue).summary).data = true
    ∧ extractNumber ((createJiraIssue issue).summary) = some issue.number := by
  constructor
  · have hdata : ((createJiraIssue issue).summary).data
        = (tagChars ++ (goItoa issue.number).data ++ [':', ' ']) ++ issue.title.data := by
      show (mkSummary issue.number issue.title).data = _
      rw [mkSummary_data issue.number h issue.title]
      have h3 : (goItoa issue.number).data = natDigitsChars issue.number.toNat := by
        rw [goItoa, if_neg (by omega)]
      rw [h3]
      simp
    rw [hdata]
    exact startsWithChars_append _ _
  · exact extractNumber_mkSummary issue.number h issue.title

/-- C6 witness: the round-trip at the concrete item number 42. -/
theorem c6_witness :
    (0 : Int) ≤ issue42.number
    ∧ startsWithChars (tagChars ++ (goItoa issue42.number).data ++ [':', ' '])
        ((createJiraIssue issue42).summary).data = true
    ∧ extractNumber ((createJiraIssue issue42).summary) = some issue42.number := by
  have h := c6_summary_roundtrip issue42 (by decide)
  exact ⟨by decide, h.1, h.2⟩

/-- The alreadyKnown map agrees pointwise with the last matching issue of
the search stream. -/
theorem buildAlreadyKnown_eq_lastMatching (stream : List JiraIssue) (n : Int) :
    buildAlreadyKnown stream n
      = (lastMatching stream n).map (fun w => (⟨w.key, w.statusName⟩ : KnownIssue)) := by
  rw [buildAlreadyKnown, lastMatching]
  suffices hgen : ∀ (m : Int → Option KnownIssue) (acc : Option JiraIssue),
      m n = acc.map (fun w => (⟨w.key, w.statusName⟩ : KnownIssue)) →
      (stream.foldl
        (fun m issue =>
          match extractNumber issue.summary with
          | some k => insertKnown m k ⟨issue.key, issue.statusName⟩
          | none => m) m) n
        = (stream.foldl
            (fun acc issue =>
              if extractNumber issue.summary = some n then some issue else acc)
            acc).map (fun w => (⟨w.key, w.statusName⟩ : KnownIssue)) by
    exact hgen _ _ rfl
  induction stream with
  | nil => intro m acc hinv; exact hinv
  | cons issue rest ih =>
    intro m acc hinv
    simp only [List.foldl_cons]
    apply ih
    cases hx : extractNumber issue.summary with
    | none => simpa [hx] using hinv
    | some k =>
      by_cases hk : k = n
      · subst hk
        simp [hx, insertKnown]
      · have hk' : ¬n = k := fun hh => hk hh.symm
        simp [hx, insertKnown, hk, hk', hinv]

/-- A fold for the last match starting from a found candidate stays found. -/
theorem lastMatchingAux_isSome (rest : List JiraIssue) (n : Int) :
    ∀ w0 : JiraIssue,
      (rest.foldl
        (fun acc issue =>
          if extractNumber issue.summary = some n then some issue else acc)
        (some w0)).isSome = true := by
  induction rest with
  | nil => intro w0; rfl
  | cons i rest ih =>
    intro w0
    simp only [List.foldl_cons]
    by_cases hc : extractNumber i.summary = some n
    · simp only [hc, if_pos rfl]
      exact ih i
    · rw [if_neg hc]
      exact ih w0

/-- When some issue of the stream embeds the number, a last match exists. -/
theorem lastMatching_isSome (stream : List JiraIssue) (n : Int)
    (h : ∃ issue ∈ stream, extractNumber issue.summary = some n) :
    (lastMatching stream n).isSome = true := by
  induction stream with
  | nil => simp at h
  | cons i rest ih =>
    rw [lastMatching]
    simp only [List.foldl_cons]
    by_cases hc : extractNumber i.summary = some n
    · rw [if_pos hc]
      exact lastMatchingAux_isSome rest n i
    · rw [if_neg hc]
      rcases h with ⟨j, hj, hjx⟩
      rcases List.mem_cons.mp hj with rfl | hj
      · exact absurd hjx hc
      · exact ih ⟨j, hj, hjx⟩

/-- The last match, when it exists, embeds the looked-up number. -/
theorem lastMatching_extract (stream : List JiraIssue) (n : Int) :
    ∀ (acc : Option JiraIssue),
      (∀ w', acc = some w' → extractNumber w'.summary = some n) →
      ∀ w, (stream.foldl
          (fun acc issue =>
            if extractNumber issue.summary = some n then some issue else acc)
          acc) = some w →
        extractNumber w.summary = some n := by
  induction stream with
  | nil => intro acc hacc w hw; exact hacc w hw
  | cons i rest ih =>
    intro acc hacc w hw
    simp only [List.foldl_cons] at hw
    by_cases hc : extractNumber i.summary = some n
    · rw [if_pos hc] at hw
      exact ih (some i) (fun w' hw' => by cases hw'; exact hc) w hw
    · rw [if_neg hc] at hw
      exact ih acc hacc w hw

/-- C5 amended: when the search stream contains issues embedding a given
number, the alreadyKnown map associates that number with exactly one record,
namely the record of the LAST such issue in stream order (Go map assignment
in a loop is last-write-wins). -/
theorem c5_last_match_wins (stream : List JiraIssue) (n : Int)
    (h : ∃ issue ∈ stream, extractNumber issue.summary = some n) :
    ∃ w, lastMatching stream n = some w
      ∧ extractNumber w.summary = some n
      ∧ buildAlreadyKnown stream n = some ⟨w.key, w.statusName⟩ := by
  obtain ⟨w, hw⟩ := Option.isSome_iff_exists.mp (lastMatching_isSome stream n h)
  refine ⟨w, hw, ?_, ?_⟩
  · exact lastMatching_extract stream n none (fun w' hw' => by cases hw') w
      (by rw [lastMatching] at hw; exact hw)
  · rw [buildAlreadyKnown_eq_lastMatching, hw]
    rfl

/-- C5 witness: the duplicate stream for number 5 resolves to the second
record. -/
theorem c5_witness :
    ∃ w, lastMatching [dupIssueA, dupIssueB] 5 = some w
      ∧ extractNumber w.summary = some 5
      ∧ buildAlreadyKnown [dupIssueA, dupIssueB] 5 = some ⟨w.key, w.statusName⟩ :=
  c5_last_match_wins [dupIssueA, dupIssueB] 5 ⟨dupIssueB, by decide, by decide⟩

/-- One reconciler action only touches the index at the item's own number. -/
theorem applyDecision_ne (m : Int → Option KnownIssue) (d : Decision) (number : Int)
    (nk cs : String) (n : Int) (h : n ≠ number) :
    applyDecision m d number nk cs n = m n := by
  cases d <;> simp [applyDecision, h]

/-- A run over items whose numbers all differ from n leaves the index
unchanged at n. -/
theorem effect_foldl_untouched (ak : Int → Option KnownIssue) (newKeyOf : Int → String)
    (createdStatus : String) (l : List GithubIssue) :
    ∀ (m : Int → Option KnownIssue) (n : Int), (∀ j ∈ l, j.number ≠ n) →
      (l.foldl
        (fun m i =>
          applyDecision m (decision ak i) i.number (newKeyOf i.number) createdStatus) m) n
        = m n := by
  induction l with
  | nil => intro m n _; rfl
  | cons j rest ih =>
    intro m n h
    simp only [List.foldl_cons]
    rw [ih _ n fun x hx => h x (by simp [hx])]
    exact applyDecision_ne _ _ _ _ _ n (Ne.symm (h j (by simp)))

/-- Values of one reconciler action at the item's own number, one equation
per decision. -/
theorem applyDecision_self (m : Int → Option KnownIssue) (number : Int) (nk cs : String) :
    applyDecision m Decision.create number nk cs number = some ⟨nk, cs⟩
    ∧ applyDecision m Decision.transitionToClosed number nk cs number
        = (m number).map (fun k => (⟨k.key, "Closed"⟩ : KnownIssue))
    ∧ applyDecision m Decision.transitionToOpen number nk cs number
        = (m number).map (fun k => (⟨k.key, "To Do"⟩ : KnownIssue))
    ∧ applyDecision m Decision.noOp number nk cs number = m number := by
  refine ⟨by simp [applyDecision], by simp [applyDecision], by simp [applyDecision], rfl⟩

/-- C3 amended: after a first run whose creates and transitions all succeeded
and are reflected in the rebuilt index, the second run decides no-op for
every item EXCEPT a closed item whose first-run decision was create: a
freshly created ticket carries the tracker's initial status, which is not
"Closed", and the first run never transitions a ticket it has just created,
so such an item gets transition-to-Closed on the second run. -/
theorem c3_second_run_decisions
    (alreadyKnown : Int → Option KnownIssue) (issues : List GithubIssue)
    (newKeyOf : Int → String) (createdStatus : String)
    (hstatus : createdStatus ≠ "Closed")
    (hnodup : issues.Pairwise (fun a b => a.number ≠ b.number))
    (i : GithubIssue) (hi : i ∈ issues) :
    decision (runEffect alreadyKnown issues newKeyOf createdStatus) i
      = if decision alreadyKnown i = Decision.create ∧ i.status = "closed"
        then Decision.transitionToClosed else Decision.noOp := by
  obtain ⟨s, t, rfl⟩ := List.append_of_mem hi
  have hpair := List.pairwise_append.mp hnodup
  have hs : ∀ j ∈ s, j.number ≠ i.number := fun j hj => hpair.2.2 j hj i (by simp)
  have ht : ∀ j ∈ t, j.number ≠ i.number := by
    have hct := List.pairwise_cons.mp hpair.2.1
    exact fun j hj => (hct.1 j hj).symm
  have hm1 : (s.foldl
      (fun m i =>
        applyDecision m (decision alreadyKnown i) i.number (newKeyOf i.number) createdStatus)
      alreadyKnown) i.number = alreadyKnown i.number :=
    effect_foldl_untouched alreadyKnown newKeyOf createdStatus s alreadyKnown i.number hs
  have hval : runEffect alreadyKnown (s ++ i :: t) newKeyOf createdStatus i.number
      = applyDecision
          (s.foldl
            (fun m i =>
              applyDecision m (decision alreadyKnown i) i.number (newKeyOf i.number)
                createdStatus)
            alreadyKnown)
          (decision alreadyKnown i) i.number (newKeyOf i.number) createdStatus i.number := by
    rw [runEffect, List.foldl_append, List.foldl_cons]
    exact effect_foldl_untouched alreadyKnown newKeyOf createdStatus t _ i.number ht
  cases hak : alreadyKnown i.number with
  | none =>
    have hd0 : decision alreadyKnown i = Decision.create := by
      simp [decision, hak]
    have hfin : runEffect alreadyKnown (s ++ i :: t) newKeyOf createdStatus i.number
        = some ⟨newKeyOf i.number, createdStatus⟩ := by
      rw [hval, hd0, (applyDecision_self _ _ _ _).1]
    by_cases hc : i.status = "closed"
    · simp [decision, hfin, hc, hstatus, hak]
    · simp [decision, hfin, hc, hstatus, hak]
  | some k =>
    have hrhs : (if decision alreadyKnown i = Decision.create ∧ i.status = "closed"
        then Decision.transitionToClosed else Decision.noOp) = Decision.noOp := by
      rw [if_neg]
      rintro ⟨h1, _⟩
      simp only [decision, hak] at h1
      split at h1 <;> simp_all
    rw [hrhs]
    by_cases hc : (i.status == "closed" && k.statusName != "Closed") = true
    · have hd0 : decision alreadyKnown i = Decision.transitionToClosed := by
        simp only [decision, hak]
        rw [if_pos hc]
      have hfin : runEffect alreadyKnown (s ++ i :: t) newKeyOf createdStatus i.number
          = some ⟨k.key, "Closed"⟩ := by
        rw [hval, hd0, (applyDecision_self _ _ _ _).2.1, hm1, hak]
        rfl
      have hcp : i.status = "closed" ∧ k.statusName ≠ "Closed" := by
        simpa using hc
      simp [decision, hfin, hcp.1]
    · by_cases ho : (i.status == "open" && k.statusName == "Closed") = true
      · have hd0 : decision alreadyKnown i = Decision.transitionToOpen := by
          simp only [decision, hak]
          rw [if_neg hc, if_pos ho]
        have hfin : runEffect alreadyKnown (s ++ i :: t) newKeyOf createdStatus i.number
            = some ⟨k.key, "To Do"⟩ := by
          rw [hval, hd0, (applyDecision_self _ _ _ _).2.2.1, hm1, hak]
          rfl
        have hop : i.status = "open" ∧ k.statusName = "Closed" := by
          simpa using ho
        simp [decision, hfin, hop.1]
      · have hd0 : decision alreadyKnown i = Decision.noOp := by
          simp only [decision, hak]
          rw [if_neg hc, if_neg ho]
        have hfin : runEffect alreadyKnown (s ++ i :: t) newKeyOf createdStatus i.number
            = some k := by
          rw [hval, hd0, (applyDecision_self _ _ _ _).2.2.2, hm1, hak]
        simp only [decision, hfin]
        rw [if_neg hc, if_neg ho]

/-- C3 witness: an open item created on the first run is no-op on the second
run. -/
theorem c3_witness :
    decision (runEffect emptyIndex [issue7] (fun _ => "OSASINFRA-9") "New") issue7
      = Decision.noOp := by
  have h := c3_second_run_decisions emptyIndex [issue7] (fun _ => "OSASINFRA-9") "New"
    (by decide) (by simp) issue7 (by simp)
  exact h.trans (by decide)

end Ghira
